import Mathlib

/-!
Shallow embedding of the AH bonus shopping agent's product-resolution and
cart-reconciliation engine (`cart_automation.py`, `main.py`,
`shopping_agent.py`).

Modelling conventions:
* Python strings are `List Char`; `str.lower` / `str.strip` / `str.split`
  are modelled for the ASCII range actually used by the code.
* Python floats are modelled as exact rationals `ℚ` (the float literals
  0.5, 0.6, 0.4, 1.2, 0.8 become 1/2, 3/5, 2/5, 6/5, 4/5).
* `difflib.SequenceMatcher.ratio` is modelled for inputs shorter than 200
  characters, where the autojunk heuristic is inactive: the longest
  matching block (maximal size, then smallest start in `a`, then smallest
  start in `b`) is found, the algorithm recurses left and right of it and
  `ratio = 2*M/(len a + len b)` for the total matched size `M`.
* Selenium calls are modelled by environment records holding the values
  the page would have produced; helper methods of the source that swallow
  every exception and return a bool/default are modelled as total
  functions into that type.
-/

namespace AHBonus

set_option maxRecDepth 100000

/-! ## Python string primitives -/

/-- Model of `str.lower` restricted to the ASCII range. -/
def pyLower (s : List Char) : List Char := s.map Char.toLower

def isWs (c : Char) : Bool := c.isWhitespace

/-- Model of `str.strip`: drop leading and trailing whitespace. -/
def pyStrip (s : List Char) : List Char :=
  ((s.dropWhile isWs).reverse.dropWhile isWs).reverse

/-- Model of `title.lower().strip()`, the normalisation used throughout the matcher. -/
def pyNorm (s : List Char) : List Char := pyStrip (pyLower s)

/-- Python's `t in c` on strings: substring test. -/
def strIn (t c : List Char) : Bool := decide (t <:+: c)

def splitAux : List Char → List Char → List (List Char)
  | [], acc => if acc.isEmpty then [] else [acc.reverse]
  | c :: rest, acc =>
    if isWs c then
      if acc.isEmpty then splitAux rest [] else acc.reverse :: splitAux rest []
    else splitAux rest (c :: acc)

/-- Model of `str.split()` with no separator: whitespace runs, no empty tokens. -/
def pySplit (s : List Char) : List (List Char) := splitAux s []

/-! ## difflib.SequenceMatcher (junk-free case) -/

/-- Length of the common prefix of two character lists. -/
def commonLen : List Char → List Char → ℕ
  | a :: as_, b :: bs => if a = b then commonLen as_ bs + 1 else 0
  | _, _ => 0

/-- Slice `l[lo:hi]` as a sublist. -/
def slice (l : List Char) (lo hi : ℕ) : List Char := (l.take hi).drop lo

/-- Size of the matching block starting at positions `i`, `j` inside the
windows `[alo, ahi)` × `[blo, bhi)`. -/
def extLen (a b : List Char) (ahi bhi i j : ℕ) : ℕ :=
  commonLen (slice a i ahi) (slice b j bhi)

structure Block where
  i : ℕ
  j : ℕ
  size : ℕ
deriving DecidableEq

/-- Keep the incumbent on ties (strict improvement only), matching
difflib's `if k > bestsize` update. -/
def betterBlock (best cand : Block) : Block :=
  if best.size < cand.size then cand else best

/-- All `(i, j)` start-position pairs of the two windows, in lexicographic
order, so that a strict-improvement fold realises difflib's tie-break:
longest block, then smallest `i`, then smallest `j`. -/
def candPairs (alo ahi blo bhi : ℕ) : List (ℕ × ℕ) :=
  (List.range' alo (ahi - alo)).flatMap
    (fun i => (List.range' blo (bhi - blo)).map (fun j => (i, j)))

/-- Model of `SequenceMatcher.find_longest_match` on junk-free inputs. -/
def findLongestMatch (a b : List Char) (alo ahi blo bhi : ℕ) : Block :=
  (candPairs alo ahi blo bhi).foldl
    (fun best ij => betterBlock best ⟨ij.1, ij.2, extLen a b ahi bhi ij.1 ij.2⟩)
    ⟨alo, blo, 0⟩

/-- Total size of all matching blocks (`get_matching_blocks` recursion),
with explicit fuel; every recursive call shrinks `ahi - alo`, so fuel
`a.length + 1` at the top level is never exhausted. -/
def matchSumF (a b : List Char) : ℕ → ℕ → ℕ → ℕ → ℕ → ℕ
  | 0, _, _, _, _ => 0
  | fuel + 1, alo, ahi, blo, bhi =>
    let blk := findLongestMatch a b alo ahi blo bhi
    if blk.size = 0 then 0
    else
      matchSumF a b fuel alo blk.i blo blk.j + blk.size +
        matchSumF a b fuel (blk.i + blk.size) ahi (blk.j + blk.size) bhi

def matchTotal (a b : List Char) : ℕ :=
  matchSumF a b (a.length + 1) 0 a.length 0 b.length

/-- Model of `SequenceMatcher(None, a, b).ratio()`; difflib returns 1.0 when both
strings are empty. -/
def seqRatio (a b : List Char) : ℚ :=
  if a.length + b.length = 0 then 1
  else 2 * (matchTotal a b : ℚ) / ((a.length : ℚ) + (b.length : ℚ))

/-! ## The matcher `_find_product_in_all_sources` -/

/-- The stoplist of unit/quantity noise tokens of line 124. -/
def stopTokens : List (List Char) :=
  ["ah".data, "x2".data, "x1".data, "x3".data, "x4".data,
   "1l".data, "2l".data, "500g".data, "300g".data]

/-- The `search_keywords` list: tokens of the normalised search title, excluding the
stoplist and tokens of length ≤ 2. -/
def searchKeywords (searchTitle : List Char) : List (List Char) :=
  (pySplit searchTitle).filter (fun kw => decide (kw ∉ stopTokens ∧ 2 < kw.length))

/-- The `keyword_score` value: fraction of keywords occurring as substrings of the
candidate name; 0 when there are no keywords. -/
def keywordScore (searchTitle name : List Char) : ℚ :=
  let kws := searchKeywords searchTitle
  if kws.length = 0 then 0
  else ((kws.countP (fun kw => strIn kw name) : ℕ) : ℚ) / (kws.length : ℚ)

/-- The `contains_match` flag: either normalised title contains the other. -/
def containsMatch (searchTitle name : List Char) : Bool :=
  strIn searchTitle name || strIn name searchTitle

/-- Composite score of lines 154–159: keyword path, contains path (note:
`fuzzy_score * 1.2` with no cap), else plain fuzzy score. -/
def compositeScore (searchTitle name : List Char) : ℚ :=
  let ks := keywordScore searchTitle name
  let fs := seqRatio searchTitle name
  if 0 < ks then ks * (3/5) + fs * (2/5)
  else if containsMatch searchTitle name then fs * (6/5)
  else fs

/-- A catalog/product entry as used by the cart module: `title`,
`product_url` (empty list models a missing or empty URL, both falsy),
`promotion_quantity` and `quantity` (absent keys are `none`). -/
structure Product where
  title : List Char
  url : List Char
  promoQty : Option ℕ
  qty : Option ℕ
deriving DecidableEq

/-- Loop state of the matcher: `best_match`, `best_score`, `best_has_url`. -/
structure MatchState where
  best : Option Product
  score : ℚ
  hasUrl : Bool
deriving DecidableEq

def initState : MatchState := ⟨none, 0, false⟩

/-- One non-exact candidate step of the matcher loop (lines 136–176):
URL-bearing candidates displace URL-less incumbents at the relaxed
threshold `0.8 * threshold`; otherwise a strictly higher score wins among
equal URL-presence; URL-less candidates never displace URL-bearing ones. -/
def stepState (threshold : ℚ) (s : List Char) (st : MatchState) (p : Product) :
    MatchState :=
  let n := pyNorm p.title
  let hasUrl : Bool := decide (p.url ≠ [])
  let sc := compositeScore s n
  if hasUrl && !st.hasUrl then
    if threshold * (4/5) ≤ sc then ⟨some p, sc, true⟩ else st
  else if hasUrl = st.hasUrl then
    if st.score < sc then ⟨some p, sc, hasUrl⟩ else st
  else st

/-- The candidate loop with the exact-match early return (lines 131–182):
candidates with an empty normalised title are skipped; an exact normalised
match returns immediately; at the end the best match is returned only when
`best_score ≥ threshold`. -/
def matchGo (threshold : ℚ) (s : List Char) : List Product → MatchState → Option Product
  | [], st => if threshold ≤ st.score then st.best else none
  | p :: rest, st =>
    let n := pyNorm p.title
    if n = [] then matchGo threshold s rest st
    else if n = s then some p
    else matchGo threshold s rest (stepState threshold s st p)

/-- The same loop without the early return, exposing the final state; used
to express what "the best candidate" is when no exact match exists. -/
def scanGo (threshold : ℚ) (s : List Char) : List Product → MatchState → MatchState
  | [], st => st
  | p :: rest, st =>
    let n := pyNorm p.title
    if n = [] then scanGo threshold s rest st
    else scanGo threshold s rest (stepState threshold s st p)

/-- Model of `_find_product_in_all_sources(product_title, available_products,
threshold)`: bonus products first, then the eerder-gekocht list. -/
def findProductInAllSources (availableProducts eerder : List Product)
    (productTitle : List Char) (threshold : ℚ) : Option Product :=
  let allProducts := availableProducts ++ eerder
  if allProducts = [] then none
  else matchGo threshold (pyNorm productTitle) allProducts initState

/-- Model of `_find_product_in_eerder_gekocht`: delegates with no bonus products. -/
def findProductInEerderGekocht (eerder : List Product) (productTitle : List Char)
    (threshold : ℚ) : Option Product :=
  findProductInAllSources [] eerder productTitle threshold

/-- Default threshold 0.5 of `_find_product_in_all_sources`. -/
def findProductInAllSourcesDefault (availableProducts eerder : List Product)
    (productTitle : List Char) : Option Product :=
  findProductInAllSources availableProducts eerder productTitle (1/2)

/-- Default threshold 0.6 of `_find_product_in_eerder_gekocht`. -/
def findProductInEerderGekochtDefault (eerder : List Product)
    (productTitle : List Char) : Option Product :=
  findProductInEerderGekocht eerder productTitle (3/5)

/-! ## Cart membership: `_is_product_in_cart` -/

/-- The `"__cart_not_empty__"` sentinel placed in `cart_items` when prices
are visible but no item title could be read. -/
def cartSentinel : List Char := "__cart_not_empty__".data

/-- Python's asymmetric `match_ratio` computation of lines 1783–1786. -/
def matchRatio (t c : List Char) : ℚ :=
  if t.length ≤ c.length then
    (if 0 < c.length then (t.length : ℚ) / (c.length : ℚ) else 0)
  else
    (if 0 < t.length then (c.length : ℚ) / (t.length : ℚ) else 0)

/-- Model of `_is_product_in_cart(product_title, cart_items)` (lines 1747–1794):
the sentinel snapshot never blocks; otherwise exact lower-cased equality,
or a mutual-substring match whose shorter side has length ≥ 5 and whose
length ratio is ≥ 0.6.  Note the code lowers `product_title` but does not
strip it; cart items are stored already lower-cased. -/
def isProductInCart (productTitle : List Char) (cartItems : List (List Char)) : Bool :=
  if cartItems.head? = some cartSentinel then false
  else
    let t := pyLower productTitle
    cartItems.any (fun c =>
      decide (t = c) ||
        ((strIn t c || strIn c t) &&
          decide (5 ≤ min t.length c.length) &&
          decide ((3/5 : ℚ) ≤ matchRatio t c)))

/-- The spec's wording for the `contains` predicate: exact equality, or a
substring relation whose shorter title has ≥ 5 characters and whose
shorter/longer length ratio is ≥ 0.6. -/
def cartContainsSpec (t c : List Char) : Prop :=
  t = c ∨
    ((t <:+: c ∨ c <:+: t) ∧ 5 ≤ min t.length c.length ∧
      (3/5 : ℚ) ≤ ((min t.length c.length : ℕ) : ℚ) / ((max t.length c.length : ℕ) : ℚ))

/-! ## The add pass: `add_products` (lines 1044–1273) -/

/-- The page-dependent outcomes `add_products` observes, one oracle entry
per 1-based item position: `cartTotal` is `get_cart_total_amount()`,
`cartItemsRead` is `_get_cart_items()`, `hasPrice` whether price elements
were visible on the cart page, and the three boolean helpers are
`_find_product_by_search`, `_find_product_by_url` and `_add_to_cart`
(each swallows its exceptions and returns a bool in the source). -/
structure AddEnv where
  cartTotal : ℚ
  cartItemsRead : List (List Char)
  hasPrice : Bool
  searchOk : ℕ → Bool
  urlNavOk : ℕ → Bool
  addOk : ℕ → Bool

/-- Lines 1076–1115: with a zero total the content check is skipped and
the cart counts as empty; otherwise the read titles are used, or the
sentinel when only prices were visible.  (The `except` branch of that
block, which also marks the cart nonempty when titles were read, is the
same as the normal path for the states modelled here.) -/
def computeCartState (env : AddEnv) : List (List Char) × Bool :=
  if 0 < env.cartTotal then
    if env.cartItemsRead ≠ [] then (env.cartItemsRead, true)
    else if env.hasPrice then ([cartSentinel], true)
    else ([], false)
  else ([], false)

/-- Line 1143: `quantity = product.get("promotion_quantity") or
product.get("quantity", 1)` — the item's own promotion quantity wins
whenever it is present and nonzero (truthy). -/
def resolvedQuantity (p : Product) : ℕ :=
  match p.promoQty with
  | some n => if n ≠ 0 then n else p.qty.getD 1
  | none => p.qty.getD 1

/-- The `CartResult` dataclass (the presentation-only `message` field is
omitted). -/
structure CartResult where
  success : Bool
  added_count : ℕ
  failed_count : ℕ
  failed_products : List (List Char)
deriving DecidableEq

/-- The running accumulators of the add loop; `failed` entries keep only
the product title (the source appends a human-readable reason suffix,
which does not change the list's length), and `addCalls` records the
quantity passed to each `_add_to_cart` invocation. -/
structure AddAcc where
  added : ℕ
  skipped : ℕ
  failed : List (List Char)
  addCalls : List ℕ
deriving DecidableEq

inductive UrlResolution
  | viaUrl (u : List Char)
  | viaSearch
  | noneFound
deriving DecidableEq

/-- Lines 1141 and 1159–1197: take the item's own `product_url` when
truthy; otherwise match against all sources (threshold 0.5): a matched URL
is used directly, a match without URL or no match falls back to the search
helper, whose failure records the item as failed. -/
def resolveUrl (env : AddEnv) (avail eerder : List Product) (p : Product) (i : ℕ) :
    UrlResolution :=
  if p.url ≠ [] then .viaUrl p.url
  else
    match findProductInAllSources avail eerder p.title (1/2) with
    | some m =>
      if m.url ≠ [] then .viaUrl m.url
      else if env.searchOk i then .viaSearch else .noneFound
    | none => if env.searchOk i then .viaSearch else .noneFound

/-- Lines 1232–1249: the accounting on `success_count` versus `quantity`
(`success_count` is either `0` or the full `quantity` in this code, so the
partial branch is unreachable, but it is kept for fidelity). -/
def finishItem (p : Product) (q sc : ℕ) (calls : List ℕ) (acc : AddAcc) : AddAcc :=
  if sc = q then
    { acc with added := acc.added + q, addCalls := acc.addCalls ++ calls }
  else if 0 < sc then
    { acc with
        added := acc.added + sc
        failed := acc.failed ++ [p.title]
        addCalls := acc.addCalls ++ calls }
  else
    { acc with failed := acc.failed ++ [p.title], addCalls := acc.addCalls ++ calls }

/-- One iteration of the add loop (lines 1139–1252) for the item at the
1-based position `i`. -/
def processItem (env : AddEnv) (avail eerder : List Product)
    (cartItems : List (List Char)) (i : ℕ) (p : Product) (acc : AddAcc) : AddAcc :=
  let q := resolvedQuantity p
  if isProductInCart p.title cartItems then
    { acc with skipped := acc.skipped + q }
  else
    match resolveUrl env avail eerder p i with
    | .noneFound => { acc with failed := acc.failed ++ [p.title] }
    | .viaUrl _ =>
      if env.urlNavOk i then
        finishItem p q (if env.addOk i then q else 0) [q] acc
      else
        finishItem p q 0 [] acc
    | .viaSearch =>
      finishItem p q (if env.addOk i then q else 0) [q] acc

def addLoop (env : AddEnv) (avail eerder : List Product)
    (cartItems : List (List Char)) : List Product → ℕ → AddAcc → AddAcc
  | [], _, acc => acc
  | p :: rest, i, acc =>
    addLoop env avail eerder cartItems rest (i + 1)
      (processItem env avail eerder cartItems i p acc)

/-- Observable outcome of one `add_products` call: the returned
`CartResult` plus the loop-local `skipped_count`, the trace of
`_add_to_cart` quantities, and whether the early cart-not-empty return was
taken. -/
structure AddOutcome where
  result : CartResult
  skipped : ℕ
  addCalls : List ℕ
  earlyReturn : Bool
deriving DecidableEq

/-- Model of `add_products(products, force_add, available_products)`: the early
return of lines 1118–1129 reports `success=True` with zero counts; the
normal return of lines 1254–1262 reports `success = added_count > 0 or
skipped_count > 0` and `failed_count = len(failed_products)`. -/
def addProducts (env : AddEnv) (products : List Product) (forceAdd : Bool)
    (avail eerder : List Product) : AddOutcome :=
  let cs := computeCartState env
  if cs.2 && !forceAdd then
    ⟨⟨true, 0, 0, []⟩, 0, [], true⟩
  else
    let acc := addLoop env avail eerder cs.1 products 1 ⟨0, 0, [], []⟩
    ⟨⟨decide (0 < acc.added) || decide (0 < acc.skipped), acc.added,
        acc.failed.length, acc.failed⟩,
      acc.skipped, acc.addCalls, false⟩

/-! ## The reconciliation loop of `main.py` (lines 227–287) -/

/-- One LLM cart-check result: the `satisfied` flag and the
`products_to_add` list. -/
structure CartCheck where
  satisfied : Bool
  productsToAdd : List Product

/-- The loop's environment: `totalAfter n` is the cart total read after
`n` add passes have been performed, and `recheck k` is the result of the
`k`-th in-loop `check_cart_with_llm` call. -/
structure MainEnv where
  totalAfter : ℕ → ℚ
  recheck : ℕ → CartCheck

/-- Final observables of the while loop: iterations executed, add passes
performed (each `add_products` or `add_from_buckets` call), and LLM
rechecks performed. -/
structure LoopResult where
  iters : ℕ
  passes : ℕ
  checks : ℕ
deriving DecidableEq

/-- The `while attempt < max_attempts` loop, by recursion on the number of
remaining attempts; after `attempt += 1`, the source's inner test
`attempt < max_attempts` is equivalent to `1 ≤ r` for `r` remaining
attempts after this one. -/
def loopGo (env : MainEnv) (minTotal : ℚ) :
    ℕ → CartCheck → ℕ → ℕ → LoopResult
  | 0, _, passes, checks => ⟨0, passes, checks⟩
  | r + 1, check, passes, checks =>
    if check.productsToAdd ≠ [] then
      let p1 := passes + 1
      if minTotal ≤ env.totalAfter p1 then ⟨1, p1, checks⟩
      else if 1 ≤ r then
        let check2 := env.recheck checks
        if check2.satisfied then
          let p2 := p1 + 1
          if minTotal ≤ env.totalAfter p2 then ⟨1, p2, checks + 1⟩
          else
            let rest := loopGo env minTotal r check2 p2 (checks + 1)
            ⟨rest.iters + 1, rest.passes, rest.checks⟩
        else
          let rest := loopGo env minTotal r check2 p1 (checks + 1)
          ⟨rest.iters + 1, rest.passes, rest.checks⟩
      else ⟨1, p1, checks⟩
    else
      let p1 := passes + 1
      if minTotal ≤ env.totalAfter p1 then ⟨1, p1, checks⟩
      else
        let rest := loopGo env minTotal r check p1 checks
        ⟨rest.iters + 1, rest.passes, rest.checks⟩

/-- The `max_attempts = 3` constant (main.py line 227). -/
def mainMaxAttempts : ℕ := 3

/-- The `min_total_amount = 50.0` constant (main.py line 229). -/
def mainMinTotal : ℚ := 50

def mainReconcileLoop (env : MainEnv) (check : CartCheck) : LoopResult :=
  loopGo env mainMinTotal mainMaxAttempts check 0 0

/-- The final `cart.get_cart_total_amount()` read after the loop. -/
def mainFinalTotal (env : MainEnv) (check : CartCheck) : ℚ :=
  env.totalAfter (mainReconcileLoop env check).passes

/-! ## The per-item loop of `shopping_agent.add_products_to_cart`
(lines 622–667) -/

structure SAProduct where
  title : List Char
  url : List Char
deriving DecidableEq

/-- Outcome of one item's add attempt: the helper returned a bool, or the
body raised (the transport-level fault caught by the per-item handler). -/
inductive SAOutcome
  | ok (added : Bool)
  | raised
deriving DecidableEq

/-- One iteration: success bumps `added_count`; a `False` return or a
caught exception appends to `failed_products`, and the loop continues. -/
def saStep (outcome : SAProduct → SAOutcome) (acc : ℕ × List (List Char))
    (p : SAProduct) : ℕ × List (List Char) :=
  match outcome p with
  | .ok true => (acc.1 + 1, acc.2)
  | .ok false => (acc.1, acc.2 ++ [p.title])
  | .raised => (acc.1, acc.2 ++ [p.title])

def saAddLoop (outcome : SAProduct → SAOutcome) (items : List SAProduct) :
    ℕ × List (List Char) :=
  items.foldl (saStep outcome) (0, [])

/-! ## `get_cart_total_amount` (lines 1298–1392) -/

/-- Digit run to a natural number. -/
def natOfDigits (ds : List Char) : ℕ :=
  ds.foldl (fun n c => n * 10 + (c.toNat - '0'.toNat)) 0

/-- Anchored match of the regex `\d+[.,]\d+` at the head of the list,
returning the matched amount as an exact rational (Python's
`float(m.group(1).replace(',', '.'))`). -/
def parseAmountAt (l : List Char) : Option ℚ :=
  let d1 := l.takeWhile Char.isDigit
  if d1 = [] then none
  else
    match l.drop d1.length with
    | c :: rest =>
      if c = '.' ∨ c = ',' then
        let d2 := rest.takeWhile Char.isDigit
        if d2 = [] then none
        else some ((natOfDigits d1 : ℚ) + (natOfDigits d2 : ℚ) / ((10 : ℚ) ^ d2.length))
      else none
    | [] => none

/-- Model of `re.search(r'(\d+[.,]\d+)', text)`: leftmost match. -/
def findAmount : List Char → Option ℚ
  | [] => none
  | c :: rest =>
    match parseAmountAt (c :: rest) with
    | some q => some q
    | none => findAmount rest

/-- Length of the maximal leading run of non-`€` characters. -/
def nonEuroRun (l : List Char) : ℕ := (l.takeWhile (fun c => c ≠ '€')).length

def dropWsRun (l : List Char) : List Char := l.dropWhile isWs

/-- One backtracking step of `Totaalbedrag[^€]*€?\s*(\d+[.,]\d+)` after
`[^€]*` consumed `k` characters: a leading `€` must be consumed by the
greedy `€?` (skipping it would strand `\s*\d+` on the `€`). -/
def totaalAtK (rest : List Char) (k : ℕ) : Option ℚ :=
  match rest.drop k with
  | '€' :: r3 => parseAmountAt (dropWsRun r3)
  | r2 => parseAmountAt (dropWsRun r2)

/-- Greedy `[^€]*`: try the longest non-`€` prefix first, backtracking one
character at a time. -/
def totaalSearchK (rest : List Char) : ℕ → Option ℚ
  | 0 => totaalAtK rest 0
  | k + 1 =>
    match totaalAtK rest (k + 1) with
    | some q => some q
    | none => totaalSearchK rest k

/-- The Totaalbedrag pattern anchored at the start of `l`. -/
def matchTotaalAt (l : List Char) : Option ℚ :=
  if decide ("Totaalbedrag".data <+: l) then
    let rest := l.drop ("Totaalbedrag".data.length)
    totaalSearchK rest (nonEuroRun rest)
  else none

/-- Model of `re.search` of the Totaalbedrag pattern: leftmost match position. -/
def searchTotaal : List Char → Option ℚ
  | [] => none
  | c :: rest =>
    match matchTotaalAt (c :: rest) with
    | some q => some q
    | none => searchTotaal rest

/-- The data the located cart button yields: its `aria-label`, the text of
the price-wrapper element of method 2 (`none` when any lookup in that
`try` block fails), and the texts of the method-3 price elements. -/
structure CartButton where
  ariaLabel : List Char
  wrapperPriceText : Option (List Char)
  priceTexts : List (List Char)

/-- Method 3 (lines 1367–1387): first stripped text without a minus sign
whose regex match parses to a positive amount; otherwise 0. -/
def method3 : List (List Char) → ℚ
  | [] => 0
  | t :: rest =>
    let t2 := pyStrip t
    if '-' ∈ t2 then method3 rest
    else
      match findAmount t2 with
      | some a => if 0 < a then a else method3 rest
      | none => method3 rest

/-- Methods 2 and 3 in sequence (lines 1348–1389). -/
def method2plus (b : CartButton) : ℚ :=
  match b.wrapperPriceText with
  | some t =>
    match findAmount (pyStrip t) with
    | some a => if 0 < a then a else method3 b.priceTexts
    | none => method3 b.priceTexts
  | none => method3 b.priceTexts

/-- Model of `get_cart_total_amount()`: 0.0 when no cart button selector matched;
otherwise method 1 (aria-label `Totaalbedrag` amount), falling through to
methods 2 and 3 unless a positive amount is found; every exception path of
the source returns 0.0, and the guards accept positive amounts only. -/
def getCartTotalAmount (b? : Option CartButton) : ℚ :=
  match b? with
  | none => 0
  | some b =>
    match
      (if strIn "Totaalbedrag".data b.ariaLabel then searchTotaal b.ariaLabel
       else none) with
    | some a => if 0 < a then a else method2plus b
    | none => method2plus b

/-! ## Generic helpers -/

theorem foldl_inv {α β : Type _} (f : β → α → β) (P : β → Prop) :
    ∀ (l : List α) (b : β), P b → (∀ x ∈ l, ∀ c, P c → P (f c x)) → P (l.foldl f b)
  | [], _, hb, _ => hb
  | x :: xs, b, hb, h =>
    foldl_inv f P xs (f b x) (h x (.head _) b hb)
      (fun y hy c hc => h y (.tail _ hy) c hc)

/-! ## Bounds for the SequenceMatcher model -/

theorem commonLen_le_left : ∀ a b : List Char, commonLen a b ≤ a.length
  | [], _ => by simp [commonLen]
  | _ :: _, [] => by simp [commonLen]
  | a :: as_, b :: bs => by
    simp only [commonLen, List.length_cons]
    split
    · exact Nat.succ_le_succ (commonLen_le_left as_ bs)
    · exact Nat.zero_le _

theorem commonLen_le_right : ∀ a b : List Char, commonLen a b ≤ b.length
  | [], _ => by simp [commonLen]
  | _ :: _, [] => by simp [commonLen]
  | a :: as_, b :: bs => by
    simp only [commonLen, List.length_cons]
    split
    · exact Nat.succ_le_succ (commonLen_le_right as_ bs)
    · exact Nat.zero_le _

theorem extLen_le_left (a b : List Char) (ahi bhi i j : ℕ) :
    extLen a b ahi bhi i j ≤ ahi - i := by
  unfold extLen
  have h1 := commonLen_le_left (slice a i ahi) (slice b j bhi)
  have h2 : (slice a i ahi).length = a.length.min ahi - i := by
    simp [slice, Nat.min_comm]
  have h3 : a.length.min ahi ≤ ahi := Nat.min_le_right _ _
  omega

theorem extLen_le_right (a b : List Char) (ahi bhi i j : ℕ) :
    extLen a b ahi bhi i j ≤ bhi - j := by
  unfold extLen
  have h1 := commonLen_le_right (slice a i ahi) (slice b j bhi)
  have h2 : (slice b j bhi).length = b.length.min bhi - j := by
    simp [slice, Nat.min_comm]
  have h3 : b.length.min bhi ≤ bhi := Nat.min_le_right _ _
  omega

/-- The bounds a `findLongestMatch` result satisfies unless it is the
trivial empty block. -/
def blockOk (alo ahi blo bhi : ℕ) (blk : Block) : Prop :=
  blk.size = 0 ∨
    (alo ≤ blk.i ∧ blk.i + blk.size ≤ ahi ∧ blo ≤ blk.j ∧ blk.j + blk.size ≤ bhi)

theorem findLongestMatch_ok (a b : List Char) (alo ahi blo bhi : ℕ) :
    blockOk alo ahi blo bhi (findLongestMatch a b alo ahi blo bhi) := by
  unfold findLongestMatch
  apply foldl_inv
  · exact Or.inl rfl
  · intro ij hij c hc
    unfold betterBlock
    split
    · rcases List.mem_flatMap.mp hij with ⟨i, hi, hj⟩
      rcases List.mem_map.mp hj with ⟨j, hjm, hje⟩
      rcases List.mem_range'_1.mp hi with ⟨hi1, hi2⟩
      rcases List.mem_range'_1.mp hjm with ⟨hj1, hj2⟩
      cases hje
      right
      dsimp only
      refine ⟨hi1, ?_, hj1, ?_⟩
      · have := extLen_le_left a b ahi bhi i j
        omega
      · have := extLen_le_right a b ahi bhi i j
        omega
    · exact hc

theorem matchSumF_le_left (a b : List Char) :
    ∀ fuel alo ahi blo bhi, matchSumF a b fuel alo ahi blo bhi ≤ ahi - alo
  | 0, _, _, _, _ => by simp [matchSumF]
  | fuel + 1, alo, ahi, blo, bhi => by
    have hb := findLongestMatch_ok a b alo ahi blo bhi
    simp only [matchSumF]
    split
    · exact Nat.zero_le _
    · rcases hb with h0 | ⟨h1, h2, h3, h4⟩
      · exact absurd h0 (by assumption)
      · have l1 := matchSumF_le_left a b fuel alo
          (findLongestMatch a b alo ahi blo bhi).i blo
          (findLongestMatch a b alo ahi blo bhi).j
        have l2 := matchSumF_le_left a b fuel
          ((findLongestMatch a b alo ahi blo bhi).i +
            (findLongestMatch a b alo ahi blo bhi).size) ahi
          ((findLongestMatch a b alo ahi blo bhi).j +
            (findLongestMatch a b alo ahi blo bhi).size) bhi
        omega

theorem matchSumF_le_right (a b : List Char) :
    ∀ fuel alo ahi blo bhi, matchSumF a b fuel alo ahi blo bhi ≤ bhi - blo
  | 0, _, _, _, _ => by simp [matchSumF]
  | fuel + 1, alo, ahi, blo, bhi => by
    have hb := findLongestMatch_ok a b alo ahi blo bhi
    simp only [matchSumF]
    split
    · exact Nat.zero_le _
    · rcases hb with h0 | ⟨h1, h2, h3, h4⟩
      · exact absurd h0 (by assumption)
      · have l1 := matchSumF_le_right a b fuel alo
          (findLongestMatch a b alo ahi blo bhi).i blo
          (findLongestMatch a b alo ahi blo bhi).j
        have l2 := matchSumF_le_right a b fuel
          ((findLongestMatch a b alo ahi blo bhi).i +
            (findLongestMatch a b alo ahi blo bhi).size) ahi
          ((findLongestMatch a b alo ahi blo bhi).j +
            (findLongestMatch a b alo ahi blo bhi).size) bhi
        omega

theorem matchTotal_le_left (a b : List Char) : matchTotal a b ≤ a.length := by
  have := matchSumF_le_left a b (a.length + 1) 0 a.length 0 b.length
  simpa [matchTotal] using this

theorem matchTotal_le_right (a b : List Char) : matchTotal a b ≤ b.length := by
  have := matchSumF_le_right a b (a.length + 1) 0 a.length 0 b.length
  simpa [matchTotal] using this

theorem seqRatio_nonneg (a b : List Char) : 0 ≤ seqRatio a b := by
  unfold seqRatio
  split
  · norm_num
  · apply div_nonneg
    · positivity
    · positivity

theorem seqRatio_le_one (a b : List Char) : seqRatio a b ≤ 1 := by
  unfold seqRatio
  split
  · norm_num
  · rename_i h
    have hpos : 0 < a.length + b.length := Nat.pos_of_ne_zero h
    rw [div_le_one (by exact_mod_cast hpos)]
    have m1 := matchTotal_le_left a b
    have m2 := matchTotal_le_right a b
    have c1 : (matchTotal a b : ℚ) ≤ (a.length : ℚ) := by exact_mod_cast m1
    have c2 : (matchTotal a b : ℚ) ≤ (b.length : ℚ) := by exact_mod_cast m2
    linarith

theorem keywordScore_nonneg (s n : List Char) : 0 ≤ keywordScore s n := by
  simp only [keywordScore]
  split
  · norm_num
  · apply div_nonneg
    · positivity
    · positivity

theorem keywordScore_le_one (s n : List Char) : keywordScore s n ≤ 1 := by
  simp only [keywordScore]
  split
  · norm_num
  · rename_i h
    have hpos : 0 < (searchKeywords s).length := Nat.pos_of_ne_zero h
    rw [div_le_one (by exact_mod_cast hpos)]
    exact_mod_cast List.countP_le_length _

/-! ## Matcher loop lemmas -/

/-- If some candidate has a nonempty normalised title equal to the search
title, the loop returns the first such candidate, whatever the state. -/
theorem matchGo_find (t : ℚ) (s : List Char) (hs : s ≠ []) :
    ∀ (l : List Product) (st : MatchState) (p : Product),
      l.find? (fun q => decide (pyNorm q.title = s)) = some p →
      matchGo t s l st = some p
  | [], _, _, h => by simp [List.find?] at h
  | q :: rest, st, p, h => by
    by_cases hq : pyNorm q.title = s
    · rw [List.find?_cons_of_pos _ (by simpa using hq)] at h
      cases h
      simp only [matchGo]
      rw [if_neg (by rw [hq]; exact hs), if_pos hq]
    · rw [List.find?_cons_of_neg _ (by simpa using hq)] at h
      simp only [matchGo]
      by_cases hq0 : pyNorm q.title = []
      · rw [if_pos hq0]
        exact matchGo_find t s hs rest st p h
      · rw [if_neg hq0, if_neg hq]
        exact matchGo_find t s hs rest _ p h

/-- Without any exact normalised match in the list, the loop's value is the
final-state threshold test on the scanned state. -/
theorem matchGo_eq_scan (t : ℚ) (s : List Char) :
    ∀ (l : List Product) (st : MatchState),
      (∀ q ∈ l, pyNorm q.title ≠ [] → pyNorm q.title ≠ s) →
      matchGo t s l st =
        (if t ≤ (scanGo t s l st).score then (scanGo t s l st).best else none)
  | [], _, _ => rfl
  | q :: rest, st, h => by
    simp only [matchGo, scanGo]
    by_cases hq0 : pyNorm q.title = []
    · rw [if_pos hq0, if_pos hq0]
      exact matchGo_eq_scan t s rest st (fun r hr => h r (.tail _ hr))
    · rw [if_neg hq0, if_neg hq0, if_neg (h q (.head _) hq0)]
      exact matchGo_eq_scan t s rest _ (fun r hr => h r (.tail _ hr))

/-- Invariant: the tracked best score is the tracked best candidate's own
composite score. -/
def stInv (s : List Char) (st : MatchState) : Prop :=
  ∀ p, st.best = some p → st.score = compositeScore s (pyNorm p.title)

theorem stepState_inv (t : ℚ) (s : List Char) (st : MatchState) (p : Product)
    (h : stInv s st) : stInv s (stepState t s st p) := by
  intro p' hp'
  simp only [stepState] at hp' ⊢
  split_ifs at hp' ⊢ <;>
    first
      | (simp only [MatchState.best, MatchState.score] at hp' ⊢;
         cases hp'; rfl)
      | exact h p' hp'

theorem scanGo_inv (t : ℚ) (s : List Char) :
    ∀ (l : List Product) (st : MatchState), stInv s st →
      stInv s (scanGo t s l st)
  | [], _, h => h
  | q :: rest, st, h => by
    simp only [scanGo]
    split
    · exact scanGo_inv t s rest st h
    · exact scanGo_inv t s rest _ (stepState_inv t s st q h)

/-! ## Claim theorems C2, C3, C4 -/

/-- Claim C2, counterexample: for desired title "ab cd" (no keywords of
length > 2) and candidate "ab cde" (a contains-match, no exact match), the
code's composite score is `1.2 * fuzzy = 12/11 > 1`; the claimed
`min(1.0, 1.2*fuzzy)` cap does not exist in the code, and the composite
score exceeds 1.0. -/
theorem claim_c2_counterexample :
    keywordScore ("ab cd".data) ("ab cde".data) = 0 ∧
    containsMatch ("ab cd".data) ("ab cde".data) = true ∧
    ¬ pyNorm ("ab cd".data) = pyNorm ("ab cde".data) ∧
    compositeScore ("ab cd".data) ("ab cde".data) = 12 / 11 ∧
    ¬ compositeScore ("ab cd".data) ("ab cde".data) ≤ 1 := by
  refine ⟨by with_unfolding_all rfl, rfl, by decide, by with_unfolding_all rfl, ?_⟩
  rw [show compositeScore ("ab cd".data) ("ab cde".data) = 12 / 11 from by
    with_unfolding_all rfl]
  norm_num

/-- Claim C2, amended: the composite score is `0.6*keyword_score +
0.4*fuzzy_score` when the keyword score is positive, the uncapped
`1.2*fuzzy_score` when the keyword score is zero and one title contains
the other, and `fuzzy_score` otherwise; it can exceed 1.0 but never
exceeds 1.2. -/
theorem claim_c2_amended (s n : List Char) :
    (0 < keywordScore s n →
      compositeScore s n = keywordScore s n * (3/5) + seqRatio s n * (2/5)) ∧
    (keywordScore s n = 0 → containsMatch s n = true →
      compositeScore s n = seqRatio s n * (6/5)) ∧
    (keywordScore s n = 0 → containsMatch s n = false →
      compositeScore s n = seqRatio s n) ∧
    compositeScore s n ≤ 6/5 := by
  have hk0 := keywordScore_nonneg s n
  have hk1 := keywordScore_le_one s n
  have hf0 := seqRatio_nonneg s n
  have hf1 := seqRatio_le_one s n
  simp only [compositeScore]
  refine ⟨fun h => by rw [if_pos h], fun h hc => ?_, fun h hc => ?_, ?_⟩
  · rw [if_neg (by rw [h]; exact lt_irrefl 0), if_pos hc]
  · rw [if_neg (by rw [h]; exact lt_irrefl 0), if_neg (by rw [hc]; exact Bool.false_ne_true)]
  · split_ifs with h1 h2
    · nlinarith
    · linarith
    · linarith

/-- Claim C2, witness: for the identical title "abc" the keyword path is
taken and the composite score is `0.6*1 + 0.4*1 = 1`. -/
theorem claim_c2_witness :
    compositeScore ("abc".data) ("abc".data) =
      keywordScore ("abc".data) ("abc".data) * (3/5) +
        seqRatio ("abc".data) ("abc".data) * (2/5) :=
  (claim_c2_amended ("abc".data) ("abc".data)).1
    (by
      rw [show keywordScore ("abc".data) ("abc".data) = 1 from by
        with_unfolding_all rfl]
      norm_num)

/-- Claim C3, counterexample: a desired title that normalises to the empty
string (here a whitespace-only title) and a candidate whose title also
normalises to the empty string are exactly equal after normalisation, yet
the matcher skips empty candidate names and returns no match instead of
that candidate. -/
theorem claim_c3_counterexample :
    pyNorm ((⟨" ".data, [], none, none⟩ : Product).title) = pyNorm (" ".data) ∧
    findProductInAllSources [] [⟨" ".data, [], none, none⟩] (" ".data) (1/2) = none := by
  exact ⟨rfl, by with_unfolding_all rfl⟩

/-- Claim C3, amended: whenever the normalised desired title is nonempty
and some candidate's normalised title equals it exactly, the matcher
returns the first such candidate in index order immediately, regardless of
any other candidate's score or identifier presence and of the threshold. -/
theorem claim_c3_amended (avail eerder : List Product) (ti : List Char) (t : ℚ)
    (p : Product) (hs : pyNorm ti ≠ [])
    (hfind : (avail ++ eerder).find? (fun q => decide (pyNorm q.title = pyNorm ti))
      = some p) :
    findProductInAllSources avail eerder ti t = some p := by
  unfold findProductInAllSources
  have hne : avail ++ eerder ≠ [] := by
    intro h
    rw [h] at hfind
    simp [List.find?] at hfind
  rw [if_neg hne]
  exact matchGo_find t (pyNorm ti) hs _ initState p hfind

/-- Claim C3, witness: the spec's own example — desired "AH Halfvolle
Melk" with a candidate titled exactly "ah halfvolle melk" is matched
immediately, although an earlier keyword-scoring candidate exists. -/
theorem claim_c3_witness :
    findProductInAllSources
      [⟨"ah halfvolle melk bonus pak".data, "u1".data, none, none⟩]
      [⟨"ah halfvolle melk".data, [], none, none⟩]
      ("AH Halfvolle Melk".data) (1/2) =
      some ⟨"ah halfvolle melk".data, [], none, none⟩ :=
  claim_c3_amended _ _ _ _ _ (by decide) (by decide)

/-- Claim C4: with no exact normalised match present, the matcher returns
the loop's best candidate exactly when its score reaches the threshold
(`best_score >= threshold`, so a score equal to the threshold is accepted
and a lower one yields no match); the tracked best score is the best
candidate's own composite score; and the default thresholds are 0.5 for
the all-sources search and 0.6 for the fallback-only search. -/
theorem claim_c4 (avail eerder : List Product) (ti : List Char) (t : ℚ) (p : Product)
    (hx : ∀ q ∈ avail ++ eerder, pyNorm q.title ≠ [] → pyNorm q.title ≠ pyNorm ti) :
    (findProductInAllSources avail eerder ti t = some p ↔
      (scanGo t (pyNorm ti) (avail ++ eerder) initState).best = some p ∧
      t ≤ (scanGo t (pyNorm ti) (avail ++ eerder) initState).score) ∧
    ((scanGo t (pyNorm ti) (avail ++ eerder) initState).best = some p →
      (scanGo t (pyNorm ti) (avail ++ eerder) initState).score
        = compositeScore (pyNorm ti) (pyNorm p.title)) ∧
    findProductInAllSourcesDefault avail eerder ti
      = findProductInAllSources avail eerder ti (1/2) ∧
    findProductInEerderGekochtDefault eerder ti
      = findProductInAllSources [] eerder ti (3/5) := by
  refine ⟨?_, ?_, rfl, rfl⟩
  · unfold findProductInAllSources
    by_cases hall : avail ++ eerder = []
    · rw [if_pos hall, hall]
      simp [scanGo, initState]
    · rw [if_neg hall, matchGo_eq_scan t (pyNorm ti) (avail ++ eerder) initState hx]
      split_ifs with hle
      · simp [hle]
      · simp [hle]
  · intro hb
    exact scanGo_inv t (pyNorm ti) (avail ++ eerder) initState
      (fun q hq => by simp [initState] at hq) p hb

/-- Claim C4, witness: a concrete fallback-only search with no exact
match, instantiating the acceptance equivalence at threshold 0.5. -/
theorem claim_c4_witness :
    (findProductInAllSources [] [⟨"boerenkaas jong".data, [], none, none⟩]
        ("boerenkaas".data) (1/2) =
        some ⟨"boerenkaas jong".data, [], none, none⟩ ↔
      (scanGo (1/2) (pyNorm ("boerenkaas".data))
          ([] ++ [⟨"boerenkaas jong".data, [], none, none⟩]) initState).best =
        some ⟨"boerenkaas jong".data, [], none, none⟩ ∧
      (1/2 : ℚ) ≤ (scanGo (1/2) (pyNorm ("boerenkaas".data))
          ([] ++ [⟨"boerenkaas jong".data, [], none, none⟩]) initState).score) :=
  (claim_c4 [] [⟨"boerenkaas jong".data, [], none, none⟩]
    ("boerenkaas".data) (1/2) ⟨"boerenkaas jong".data, [], none, none⟩
    (by decide)).1

/-! ## Cart-membership lemmas and claim C5 -/

theorem matchRatio_eq (t c : List Char) (h : 5 ≤ min t.length c.length) :
    matchRatio t c =
      ((min t.length c.length : ℕ) : ℚ) / ((max t.length c.length : ℕ) : ℚ) := by
  unfold matchRatio
  rcases le_or_lt t.length c.length with hle | hlt
  · rw [if_pos hle, if_pos (by omega : 0 < c.length),
      Nat.min_eq_left hle, Nat.max_eq_right hle]
  · rw [if_neg (not_le.mpr hlt), if_pos (by omega : 0 < t.length),
      Nat.min_eq_right hlt.le, Nat.max_eq_left hlt.le]

theorem cartCond_iff (t c : List Char) :
    (decide (t = c) ||
      ((strIn t c || strIn c t) && decide (5 ≤ min t.length c.length) &&
        decide ((3/5 : ℚ) ≤ matchRatio t c))) = true ↔
      cartContainsSpec t c := by
  unfold cartContainsSpec strIn
  simp only [Bool.or_eq_true, Bool.and_eq_true, decide_eq_true_eq]
  constructor
  · rintro (h | ⟨⟨hsub, hmin⟩, hr⟩)
    · exact Or.inl h
    · exact Or.inr ⟨hsub, hmin, by rwa [matchRatio_eq t c hmin] at hr⟩
  · rintro (h | ⟨hsub, hmin, hr⟩)
    · exact Or.inl h
    · exact Or.inr ⟨⟨hsub, hmin⟩, by rwa [matchRatio_eq t c hmin]⟩

/-- Claim C5: the cart-membership predicate answers true exactly when some
cart title equals the lower-cased product title, or one is a substring of
the other with shorter length ≥ 5 and length ratio ≥ 0.6; and the
`UNKNOWN_NONEMPTY` sentinel snapshot never reports a title as present, so
it never blocks additions. -/
theorem claim_c5 (title : List Char) (items : List (List Char)) :
    (items.head? = some cartSentinel → isProductInCart title items = false) ∧
    (items.head? ≠ some cartSentinel →
      (isProductInCart title items = true ↔
        ∃ c ∈ items, cartContainsSpec (pyLower title) c)) := by
  constructor
  · intro h
    unfold isProductInCart
    rw [if_pos h]
  · intro h
    unfold isProductInCart
    rw [if_neg h, List.any_eq_true]
    constructor
    · rintro ⟨c, hc, hcond⟩
      exact ⟨c, hc, (cartCond_iff (pyLower title) c).mp hcond⟩
    · rintro ⟨c, hc, hcond⟩
      exact ⟨c, hc, (cartCond_iff (pyLower title) c).mpr hcond⟩

/-- Claim C5, witness: the sentinel snapshot blocks nothing, and a
concrete partial match ("halfvolle melk" inside "ah halfvolle melk 1l",
ratio 14/20 ≥ 0.6) is reported as present. -/
theorem claim_c5_witness :
    isProductInCart ("Melk".data) [cartSentinel] = false ∧
    (isProductInCart ("Halfvolle Melk".data) ["ah halfvolle melk 1l".data] = true ↔
      ∃ c ∈ [("ah halfvolle melk 1l".data)],
        cartContainsSpec (pyLower ("Halfvolle Melk".data)) c) :=
  ⟨(claim_c5 ("Melk".data) [cartSentinel]).1 rfl,
    (claim_c5 ("Halfvolle Melk".data) [("ah halfvolle melk 1l".data)]).2 (by decide)⟩

/-! ## Add-pass lemmas and claims C1, C6, C9 -/

theorem processItem_skip (env : AddEnv) (avail eerder : List Product)
    (cartItems : List (List Char)) (i : ℕ) (p : Product) (acc : AddAcc)
    (h : isProductInCart p.title cartItems = true) :
    processItem env avail eerder cartItems i p acc =
      { acc with skipped := acc.skipped + resolvedQuantity p } := by
  unfold processItem
  rw [if_pos h]

theorem sum_map_one {α : Type _} (f : α → ℕ) :
    ∀ l : List α, (∀ p ∈ l, f p = 1) → (l.map f).sum = l.length
  | [], _ => rfl
  | x :: xs, h => by
    rw [List.map_cons, List.sum_cons, h x (.head _),
      sum_map_one f xs (fun p hp => h p (.tail _ hp)), List.length_cons]
    omega

theorem addLoop_all_skip (env : AddEnv) (avail eerder : List Product)
    (cartItems : List (List Char)) :
    ∀ (products : List Product), (∀ p ∈ products, isProductInCart p.title cartItems = true) →
      ∀ (i : ℕ) (acc : AddAcc),
        addLoop env avail eerder cartItems products i acc =
          { acc with skipped := acc.skipped + (products.map resolvedQuantity).sum }
  | [], _, i, acc => by simp [addLoop]
  | p :: rest, h, i, acc => by
    simp only [addLoop]
    rw [processItem_skip env avail eerder cartItems i p acc (h p (.head _)),
      addLoop_all_skip env avail eerder cartItems rest
        (fun q hq => h q (.tail _ hq)) (i + 1) _]
    simp [Nat.add_assoc]

theorem processItem_addCalls (env : AddEnv) (avail eerder : List Product)
    (cartItems : List (List Char)) (i : ℕ) (p : Product) (acc : AddAcc) :
    (processItem env avail eerder cartItems i p acc).addCalls = acc.addCalls ∨
    (processItem env avail eerder cartItems i p acc).addCalls
      = acc.addCalls ++ [resolvedQuantity p] := by
  unfold processItem finishItem
  dsimp only
  split
  · exact Or.inl rfl
  · split <;> (try split_ifs) <;>
      first
        | exact Or.inl rfl
        | exact Or.inr rfl
        | (left; simp)

theorem addLoop_addCalls (env : AddEnv) (avail eerder : List Product)
    (cartItems : List (List Char)) :
    ∀ (products : List Product) (i : ℕ) (acc : AddAcc),
      ∃ tr, (addLoop env avail eerder cartItems products i acc).addCalls
          = acc.addCalls ++ tr ∧ tr.Sublist (products.map resolvedQuantity)
  | [], _, acc => ⟨[], by simp [addLoop], by simp⟩
  | p :: rest, i, acc => by
    obtain ⟨tr, htr, hsub⟩ :=
      addLoop_addCalls env avail eerder cartItems rest (i + 1)
        (processItem env avail eerder cartItems i p acc)
    rcases processItem_addCalls env avail eerder cartItems i p acc with h | h
    · refine ⟨tr, ?_, hsub.cons _⟩
      simpa [addLoop, h] using htr
    · refine ⟨resolvedQuantity p :: tr, ?_, hsub.cons₂ _⟩
      simp only [addLoop]
      rw [htr, h, List.append_assoc, List.singleton_append]

/-- Claim C1, counterexample: (a) an item with explicit quantity 1 whose
dict also carries `promotion_quantity = 3` is added with quantity 3, not
its explicit quantity; (b) an item with no explicit quantity matched to a
catalog entry with `promotion_quantity = 3` is added with quantity 1 — the
matched entry's promotion quantity is never consulted, because line 1143
resolves the quantity before the matching of line 1161. -/
theorem claim_c1_counterexample :
    (addProducts ⟨0, [], false, fun _ => true, fun _ => true, fun _ => true⟩
        [⟨"Melk".data, "u".data, some 3, some 1⟩] true [] []).addCalls = [3] ∧
    (⟨"Melk".data, "u".data, some 3, some 1⟩ : Product).qty = some 1 ∧
    (addProducts ⟨0, [], false, fun _ => true, fun _ => true, fun _ => true⟩
        [⟨"kaasblok".data, [], none, none⟩] true
        [⟨"kaasblokje".data, "u".data, some 3, none⟩] []).addCalls = [1] ∧
    findProductInAllSources [⟨"kaasblokje".data, "u".data, some 3, none⟩] []
        ("kaasblok".data) (1/2)
      = some ⟨"kaasblokje".data, "u".data, some 3, none⟩ := by
  refine ⟨?_, rfl, ?_, ?_⟩ <;> with_unfolding_all rfl

/-- Claim C1, amended: every `_add_to_cart` invocation of an add pass uses
the item's own resolved quantity — its `promotion_quantity` field when
truthy, else its explicit `quantity`, else 1 — one call at most per item
and in item order; the matched entry's promotion quantity plays no role. -/
theorem claim_c1_amended (env : AddEnv) (products : List Product) (forceAdd : Bool)
    (avail eerder : List Product) :
    ((addProducts env products forceAdd avail eerder).addCalls).Sublist
      (products.map resolvedQuantity) := by
  unfold addProducts
  dsimp only
  split
  · exact List.nil_sublist _
  · obtain ⟨tr, htr, hsub⟩ :=
      addLoop_addCalls env avail eerder (computeCartState env).1 products 1 ⟨0, 0, [], []⟩
    simpa [htr] using hsub

/-- Claim C6, counterexample: a single desired item already in the cart
whose resolved quantity is 2 (`promotion_quantity = 2`) makes the second
run report `skipped_count = 2`, not `len(desired_items) = 1`, because line
1151 adds the quantity rather than 1. -/
theorem claim_c6_counterexample :
    (addProducts ⟨10, ["melk".data], false, fun _ => true, fun _ => true, fun _ => true⟩
        [⟨"Melk".data, [], some 2, some 1⟩] true [] []).result.added_count = 0 ∧
    (addProducts ⟨10, ["melk".data], false, fun _ => true, fun _ => true, fun _ => true⟩
        [⟨"Melk".data, [], some 2, some 1⟩] true [] []).skipped = 2 ∧
    ¬ (addProducts ⟨10, ["melk".data], false, fun _ => true, fun _ => true, fun _ => true⟩
        [⟨"Melk".data, [], some 2, some 1⟩] true [] []).skipped
      = [(⟨"Melk".data, [], some 2, some 1⟩ : Product)].length := by
  refine ⟨by with_unfolding_all rfl, by with_unfolding_all rfl, ?_⟩
  rw [show (addProducts ⟨10, ["melk".data], false, fun _ => true, fun _ => true,
      fun _ => true⟩ [⟨"Melk".data, [], some 2, some 1⟩] true [] []).skipped = 2 from by
    with_unfolding_all rfl]
  simp

/-- Claim C6, amended: a forced add pass over items all already present in
the cart performs no add operation, adds nothing, fails nothing, and
reports `skipped_count` equal to the sum of the items' resolved
quantities — which equals `len(desired_items)` exactly when every resolved
quantity is 1. -/
theorem claim_c6_amended (env : AddEnv) (products avail eerder : List Product)
    (h : ∀ p ∈ products, isProductInCart p.title (computeCartState env).1 = true) :
    (addProducts env products true avail eerder).result.added_count = 0 ∧
    (addProducts env products true avail eerder).addCalls = [] ∧
    (addProducts env products true avail eerder).result.failed_products = [] ∧
    (addProducts env products true avail eerder).skipped
      = (products.map resolvedQuantity).sum ∧
    ((∀ p ∈ products, resolvedQuantity p = 1) →
      (addProducts env products true avail eerder).skipped = products.length) := by
  unfold addProducts
  dsimp only
  rw [if_neg (by simp)]
  rw [addLoop_all_skip env avail eerder (computeCartState env).1 products h 1 ⟨0, 0, [], []⟩]
  refine ⟨rfl, rfl, rfl, by simp, fun h1 => by simp [sum_map_one resolvedQuantity products h1]⟩

/-- Claim C6, witness: one unit-quantity item already in the cart is
skipped, with `skipped_count = len(desired_items) = 1`. -/
theorem claim_c6_witness :
    (addProducts ⟨10, ["melk".data], false, fun _ => true, fun _ => true, fun _ => true⟩
        [⟨"Melk".data, [], none, none⟩] true [] []).skipped
      = [(⟨"Melk".data, [], none, none⟩ : Product)].length :=
  (claim_c6_amended ⟨10, ["melk".data], false, fun _ => true, fun _ => true, fun _ => true⟩
      [⟨"Melk".data, [], none, none⟩] [] []
      (by
        intro p hp
        rw [List.mem_singleton] at hp
        subst hp
        with_unfolding_all rfl)).2.2.2.2
    (by
      intro p hp
      rw [List.mem_singleton] at hp
      subst hp
      rfl)

/-- Claim C9, counterexample: with a nonempty cart, no `force_add` and an
empty item list, the early "cart not empty" return reports `success=True`
although nothing was added and nothing was skipped, so `success` is not
equivalent to "at least one item added or skipped". -/
theorem claim_c9_counterexample :
    (addProducts ⟨10, ["iets".data], false, fun _ => true, fun _ => true, fun _ => true⟩
        [] false [] []).result.success = true ∧
    (addProducts ⟨10, ["iets".data], false, fun _ => true, fun _ => true, fun _ => true⟩
        [] false [] []).result.added_count = 0 ∧
    (addProducts ⟨10, ["iets".data], false, fun _ => true, fun _ => true, fun _ => true⟩
        [] false [] []).skipped = 0 ∧
    ¬ ((addProducts ⟨10, ["iets".data], false, fun _ => true, fun _ => true, fun _ => true⟩
          [] false [] []).result.success = true ↔
        (0 < (addProducts ⟨10, ["iets".data], false, fun _ => true, fun _ => true,
            fun _ => true⟩ [] false [] []).result.added_count ∨
          0 < (addProducts ⟨10, ["iets".data], false, fun _ => true, fun _ => true,
            fun _ => true⟩ [] false [] []).skipped)) := by
  refine ⟨by with_unfolding_all rfl, by with_unfolding_all rfl,
    by with_unfolding_all rfl, ?_⟩
  intro hiff
  have h1 := hiff.mp (by with_unfolding_all rfl)
  rw [show (addProducts ⟨10, ["iets".data], false, fun _ => true, fun _ => true,
        fun _ => true⟩ [] false [] []).result.added_count = 0 from by
      with_unfolding_all rfl,
    show (addProducts ⟨10, ["iets".data], false, fun _ => true, fun _ => true,
        fun _ => true⟩ [] false [] []).skipped = 0 from by
      with_unfolding_all rfl] at h1
  simp at h1

/-- Claim C9, amended: every `CartResult` satisfies `failed_count ==
len(failed_products)`; the end-of-loop return has `success` true exactly
when something was added or skipped (so a run where every item failed
reports `success=False`), while the early cart-not-empty return always
reports `success=True` with zero added and skipped counts. -/
theorem claim_c9_amended (env : AddEnv) (products : List Product) (forceAdd : Bool)
    (avail eerder : List Product) :
    ((addProducts env products forceAdd avail eerder).result.failed_count
      = (addProducts env products forceAdd avail eerder).result.failed_products.length) ∧
    ((addProducts env products forceAdd avail eerder).earlyReturn = false →
      ((addProducts env products forceAdd avail eerder).result.success = true ↔
        0 < (addProducts env products forceAdd avail eerder).result.added_count ∨
          0 < (addProducts env products forceAdd avail eerder).skipped)) ∧
    ((addProducts env products forceAdd avail eerder).earlyReturn = true →
      (addProducts env products forceAdd avail eerder).result.success = true ∧
      (addProducts env products forceAdd avail eerder).result.added_count = 0 ∧
      (addProducts env products forceAdd avail eerder).skipped = 0) := by
  unfold addProducts
  dsimp only
  split
  · exact ⟨rfl, fun h => by simp at h, fun _ => ⟨rfl, rfl, rfl⟩⟩
  · refine ⟨rfl, fun _ => ?_, fun h => by simp at h⟩
    simp [Bool.or_eq_true, decide_eq_true_eq]

/-- Claim C9, witness: a normal (non-early) run in which the single item
fails reports `success=False`, instantiating the equivalence. -/
theorem claim_c9_witness :
    ((addProducts ⟨0, [], false, fun _ => false, fun _ => false, fun _ => false⟩
        [⟨"iets bijzonders".data, [], none, none⟩] false [] []).result.success = true ↔
      0 < (addProducts ⟨0, [], false, fun _ => false, fun _ => false, fun _ => false⟩
          [⟨"iets bijzonders".data, [], none, none⟩] false [] []).result.added_count ∨
        0 < (addProducts ⟨0, [], false, fun _ => false, fun _ => false, fun _ => false⟩
          [⟨"iets bijzonders".data, [], none, none⟩] false [] []).skipped) :=
  (claim_c9_amended ⟨0, [], false, fun _ => false, fun _ => false, fun _ => false⟩
      [⟨"iets bijzonders".data, [], none, none⟩] false [] []).2.1
    (by with_unfolding_all rfl)

/-! ## Main-loop lemmas and claim C7 -/

theorem loopGo_iters_le (env : MainEnv) (m : ℚ) :
    ∀ (r : ℕ) (check : CartCheck) (passes checks : ℕ),
      (loopGo env m r check passes checks).iters ≤ r
  | 0, _, _, _ => le_refl 0
  | r + 1, check, passes, checks => by
    simp only [loopGo]
    split_ifs <;>
      first
        | exact Nat.succ_le_succ (Nat.zero_le r)
        | exact Nat.succ_le_succ (loopGo_iters_le env m r _ _ _)

theorem loopGo_under (env : MainEnv) (m : ℚ) (h : ∀ n, env.totalAfter n < m) :
    ∀ (r : ℕ) (check : CartCheck) (passes checks : ℕ),
      (loopGo env m r check passes checks).iters = r ∧
      (r = 0 → (loopGo env m r check passes checks).passes = passes) ∧
      (1 ≤ r → passes + r ≤ (loopGo env m r check passes checks).passes ∧
        (loopGo env m r check passes checks).passes + 1 ≤ passes + 2 * r)
  | 0, check, passes, checks =>
    ⟨rfl, fun _ => rfl, fun h1 => absurd h1 (by omega)⟩
  | r + 1, check, passes, checks => by
    have hlt : ∀ n, ¬ (m ≤ env.totalAfter n) := fun n => not_le.mpr (h n)
    simp only [loopGo]
    by_cases hp : check.productsToAdd ≠ []
    · rw [if_pos hp, if_neg (hlt _)]
      by_cases hr : 1 ≤ r
      · rw [if_pos hr]
        by_cases hsat : (env.recheck checks).satisfied = true
        · rw [if_pos hsat, if_neg (hlt _)]
          obtain ⟨h1, h2, h3⟩ :=
            loopGo_under env m h r (env.recheck checks) (passes + 1 + 1) (checks + 1)
          dsimp only
          obtain ⟨h3a, h3b⟩ := h3 hr
          exact ⟨by rw [h1], fun h0 => by omega, fun _ => by omega⟩
        · rw [if_neg hsat]
          obtain ⟨h1, h2, h3⟩ :=
            loopGo_under env m h r (env.recheck checks) (passes + 1) (checks + 1)
          dsimp only
          obtain ⟨h3a, h3b⟩ := h3 hr
          exact ⟨by rw [h1], fun h0 => by omega, fun _ => by omega⟩
      · rw [if_neg hr]
        have hr0 : r = 0 := by omega
        dsimp only
        exact ⟨by omega, fun h0 => by omega, fun _ => by omega⟩
    · rw [if_neg hp, if_neg (hlt _)]
      obtain ⟨h1, h2, h3⟩ := loopGo_under env m h r check (passes + 1) checks
      dsimp only
      refine ⟨by rw [h1], fun h0 => by omega, fun _ => ?_⟩
      rcases Nat.eq_zero_or_pos r with hr0 | hrpos
      · have := h2 hr0
        omega
      · obtain ⟨h3a, h3b⟩ := h3 hrpos
        omega

/-- Claim C7, counterexample: with a cart stuck at €10 (never reaching the
€50 target) and a recommender that keeps returning items and reports
`satisfied` on every in-loop recheck, the loop runs its 3 attempts but
performs 5 add passes (an extra bucket-based pass in attempts 1 and 2),
not exactly 3. -/
theorem claim_c7_counterexample :
    (mainReconcileLoop
        ⟨fun _ => 10, fun _ => ⟨true, [⟨"p".data, [], none, none⟩]⟩⟩
        ⟨false, [⟨"p".data, [], none, none⟩]⟩).iters = 3 ∧
    (mainReconcileLoop
        ⟨fun _ => 10, fun _ => ⟨true, [⟨"p".data, [], none, none⟩]⟩⟩
        ⟨false, [⟨"p".data, [], none, none⟩]⟩).passes = 5 ∧
    mainFinalTotal
        ⟨fun _ => 10, fun _ => ⟨true, [⟨"p".data, [], none, none⟩]⟩⟩
        ⟨false, [⟨"p".data, [], none, none⟩]⟩ < mainMinTotal := by
  refine ⟨by with_unfolding_all rfl, by with_unfolding_all rfl, ?_⟩
  rw [show mainFinalTotal
      ⟨fun _ => 10, fun _ => ⟨true, [⟨"p".data, [], none, none⟩]⟩⟩
      ⟨false, [⟨"p".data, [], none, none⟩]⟩ = 10 from by with_unfolding_all rfl]
  norm_num [mainMinTotal]

/-- Claim C7, amended: the loop never exceeds `max_attempts = 3`
iterations, so it always terminates; when the cart total never reaches the
€50 target it uses exactly 3 iterations and performs between 3 and 5 add
passes (one per attempt, plus at most one extra bucket-based pass in each
non-final attempt whose recheck reports `satisfied`), finishing with a
final total below the target. -/
theorem claim_c7_amended (env : MainEnv) (check : CartCheck) :
    (mainReconcileLoop env check).iters ≤ mainMaxAttempts ∧
    ((∀ n, env.totalAfter n < mainMinTotal) →
      (mainReconcileLoop env check).iters = mainMaxAttempts ∧
      mainMaxAttempts ≤ (mainReconcileLoop env check).passes ∧
      (mainReconcileLoop env check).passes ≤ 2 * mainMaxAttempts - 1 ∧
      mainFinalTotal env check < mainMinTotal) := by
  constructor
  · exact loopGo_iters_le env mainMinTotal mainMaxAttempts check 0 0
  · intro h
    obtain ⟨h1, h2, h3⟩ := loopGo_under env mainMinTotal h mainMaxAttempts check 0 0
    obtain ⟨h3a, h3b⟩ := h3 (by norm_num [mainMaxAttempts])
    simp only [mainReconcileLoop, mainMaxAttempts, mainFinalTotal] at *
    exact ⟨h1, by omega, by omega, h _⟩

/-- Claim C7, witness: a cart stuck at €10 with an empty recommendation
list still terminates after exactly 3 attempts, 3–5 passes, under target. -/
theorem claim_c7_witness :
    (mainReconcileLoop ⟨fun _ => 10, fun _ => ⟨false, []⟩⟩ ⟨false, []⟩).iters
      = mainMaxAttempts ∧
    mainMaxAttempts ≤ (mainReconcileLoop ⟨fun _ => 10, fun _ => ⟨false, []⟩⟩
      ⟨false, []⟩).passes ∧
    (mainReconcileLoop ⟨fun _ => 10, fun _ => ⟨false, []⟩⟩ ⟨false, []⟩).passes
      ≤ 2 * mainMaxAttempts - 1 ∧
    mainFinalTotal ⟨fun _ => 10, fun _ => ⟨false, []⟩⟩ ⟨false, []⟩ < mainMinTotal :=
  (claim_c7_amended ⟨fun _ => 10, fun _ => ⟨false, []⟩⟩ ⟨false, []⟩).2
    (fun n => by norm_num [mainMinTotal])

/-! ## Shopping-agent loop lemmas and claim C8 -/

theorem saFold_shift (outcome : SAProduct → SAOutcome) :
    ∀ (l : List SAProduct) (a : ℕ) (f : List (List Char)),
      l.foldl (saStep outcome) (a, f)
        = (a + (saAddLoop outcome l).1, f ++ (saAddLoop outcome l).2)
  | [], a, f => by simp [saAddLoop]
  | p :: rest, a, f => by
    have h1 := saFold_shift outcome rest
    simp only [saAddLoop, List.foldl_cons]
    cases houtcome : outcome p with
    | ok b =>
      cases b <;>
        simp only [saStep, houtcome] <;>
        rw [h1, h1] <;>
        simp [Prod.ext_iff, Nat.add_assoc, List.append_assoc]
    | raised =>
      simp only [saStep, houtcome]
      rw [h1, h1]
      simp [Prod.ext_iff, Nat.add_assoc, List.append_assoc]

theorem saAddLoop_length (outcome : SAProduct → SAOutcome) :
    ∀ l : List SAProduct,
      (saAddLoop outcome l).1 + ((saAddLoop outcome l).2).length = l.length
  | [] => rfl
  | p :: rest => by
    have h2 := saAddLoop_length outcome rest
    simp only [saAddLoop, List.foldl_cons]
    cases houtcome : outcome p with
    | ok b =>
      cases b <;>
        simp only [saStep, houtcome] <;>
        rw [saFold_shift outcome rest] <;>
        simp <;> omega
    | raised =>
      simp only [saStep, houtcome]
      rw [saFold_shift outcome rest]
      simp
      omega

/-- Claim C8: an item whose add attempt returns `False` or raises is
recorded as failed while every item before and after it is still attempted
and accounted for: the loop's counts decompose around the faulty item, and
`added_count + len(failed_products) = len(items)` for every run. -/
theorem claim_c8 (outcome : SAProduct → SAOutcome) (xs : List SAProduct)
    (y : SAProduct) (zs : List SAProduct) (h : ¬ outcome y = .ok true) :
    (saAddLoop outcome (xs ++ y :: zs)).1
      = (saAddLoop outcome xs).1 + (saAddLoop outcome zs).1 ∧
    (saAddLoop outcome (xs ++ y :: zs)).2
      = (saAddLoop outcome xs).2 ++ y.title :: (saAddLoop outcome zs).2 ∧
    (saAddLoop outcome (xs ++ y :: zs)).1
        + ((saAddLoop outcome (xs ++ y :: zs)).2).length
      = (xs ++ y :: zs).length := by
  have hstep : saStep outcome (saAddLoop outcome xs) y
      = ((saAddLoop outcome xs).1, (saAddLoop outcome xs).2 ++ [y.title]) := by
    cases houtcome : outcome y with
    | ok b =>
      cases b
      · simp [saStep, houtcome]
      · exact absurd houtcome h
    | raised => simp [saStep, houtcome]
  have hdec : saAddLoop outcome (xs ++ y :: zs)
      = ((saAddLoop outcome xs).1 + (saAddLoop outcome zs).1,
          (saAddLoop outcome xs).2 ++ y.title :: (saAddLoop outcome zs).2) := by
    show List.foldl (saStep outcome) (0, []) (xs ++ y :: zs) = _
    rw [List.foldl_append, List.foldl_cons]
    have hxs : List.foldl (saStep outcome) (0, []) xs = saAddLoop outcome xs := rfl
    rw [hxs, hstep, saFold_shift outcome zs]
    simp [List.append_assoc]
  refine ⟨by rw [hdec], by rw [hdec], ?_⟩
  exact saAddLoop_length outcome (xs ++ y :: zs)

/-- Claim C8, witness: in a five-item list whose third item raises, items
1–2 and 4–5 are still attempted (all succeeding here), the third is
recorded as failed, and the counts add up to 5. -/
theorem claim_c8_witness :
    (saAddLoop
        (fun p => if p.title = "p3".data then .raised else .ok true)
        ([⟨"p1".data, []⟩, ⟨"p2".data, []⟩] ++ ⟨"p3".data, []⟩ ::
          [⟨"p4".data, []⟩, ⟨"p5".data, []⟩])).1
      = (saAddLoop (fun p => if p.title = "p3".data then .raised else .ok true)
          [⟨"p1".data, []⟩, ⟨"p2".data, []⟩]).1 +
        (saAddLoop (fun p => if p.title = "p3".data then .raised else .ok true)
          [⟨"p4".data, []⟩, ⟨"p5".data, []⟩]).1 ∧
    (saAddLoop
        (fun p => if p.title = "p3".data then .raised else .ok true)
        ([⟨"p1".data, []⟩, ⟨"p2".data, []⟩] ++ ⟨"p3".data, []⟩ ::
          [⟨"p4".data, []⟩, ⟨"p5".data, []⟩])).2
      = (saAddLoop (fun p => if p.title = "p3".data then .raised else .ok true)
          [⟨"p1".data, []⟩, ⟨"p2".data, []⟩]).2 ++ ("p3".data) ::
        (saAddLoop (fun p => if p.title = "p3".data then .raised else .ok true)
          [⟨"p4".data, []⟩, ⟨"p5".data, []⟩]).2 :=
  ⟨(claim_c8 (fun p => if p.title = "p3".data then .raised else .ok true)
      [⟨"p1".data, []⟩, ⟨"p2".data, []⟩] ⟨"p3".data, []⟩
      [⟨"p4".data, []⟩, ⟨"p5".data, []⟩] (by decide)).1,
    (claim_c8 (fun p => if p.title = "p3".data then .raised else .ok true)
      [⟨"p1".data, []⟩, ⟨"p2".data, []⟩] ⟨"p3".data, []⟩
      [⟨"p4".data, []⟩, ⟨"p5".data, []⟩] (by decide)).2.1⟩

/-! ## Cart-total lemmas and claim C10 -/

theorem method3_nonneg : ∀ ts : List (List Char), 0 ≤ method3 ts
  | [] => le_refl 0
  | t :: rest => by
    simp only [method3]
    split
    · exact method3_nonneg rest
    · split
      · split_ifs with h0
        · exact le_of_lt h0
        · exact method3_nonneg rest
      · exact method3_nonneg rest

theorem method2plus_nonneg (b : CartButton) : 0 ≤ method2plus b := by
  unfold method2plus
  split
  · split
    · split_ifs with h0
      · exact le_of_lt h0
      · exact method3_nonneg _
    · exact method3_nonneg _
  · exact method3_nonneg _

/-- Claim C10: the cart-total reader is total and non-negative — every
page state yields a value ≥ 0; a missing cart button yields exactly 0.0;
and a zero total makes `add_products` treat the cart as empty (no titles,
`cart_not_empty = False`), enabling the add-everything path. -/
theorem claim_c10 :
    (∀ b? : Option CartButton, 0 ≤ getCartTotalAmount b?) ∧
    getCartTotalAmount none = 0 ∧
    (∀ (items : List (List Char)) (hp : Bool) (s u a : ℕ → Bool),
      computeCartState ⟨0, items, hp, s, u, a⟩ = ([], false)) := by
  refine ⟨?_, rfl, ?_⟩
  · intro b?
    cases b? with
    | none => exact le_refl 0
    | some b =>
      unfold getCartTotalAmount
      dsimp only
      split
      · split_ifs with h0
        · exact le_of_lt h0
        · exact method2plus_nonneg b
      · exact method2plus_nonneg b
  · intro items hp s u a
    unfold computeCartState
    dsimp only
    rw [if_neg (lt_irrefl (0 : ℚ))]

end AHBonus
